import Mathlib

namespace CUA

/-!
Shallow embedding of the computer-use agent loop of this repository:
the response data model and derived flag accessors, the drain/retry
state machine of the agent, the coordinate scaler, and the local
driver primitives.  All definitions are translated from the source
files; theorems settle the specification claims against them.
-/

/-- One content part of a message output item, with its `type` tag and text. -/
structure ContentPart where
  type : String
  text : String
deriving Repr, DecidableEq

/-- A point of a drag path. -/
structure DragPoint where
  x : Int
  y : Int
deriving Repr, DecidableEq

/-- A computer-use action carried by a computer-call output item. -/
inductive Action where
  | click (x y : Int) (button : String)
  | doubleClick (x y : Int)
  | scroll (x y scrollX scrollY : Int)
  | typeText (text : String)
  | wait (ms : Int)
  | move (x y : Int)
  | keypress (keys : List String)
  | drag (path : List DragPoint)
  | screenshot
deriving Repr, DecidableEq

/-- An output item of a model response: the discriminated union handled by
`Agent.continue_task` and the flag accessors in `cua.py`. -/
inductive Item where
  | message (role : String) (content : List ContentPart)
  | reasoning (summary : List String)
  | computerCall (callId : String) (action : Action) (pendingSafetyChecks : List String)
  | functionCall (callId : String) (name : String) (arguments : String)
  | other (itemType : String)
deriving Repr, DecidableEq

/-- The `item.type` discriminator string, as compared by the Python code. -/
def Item.type : Item → String
  | .message .. => "message"
  | .reasoning .. => "reasoning"
  | .computerCall .. => "computer_call"
  | .functionCall .. => "function_call"
  | .other t => t

/-- A model response as used by the agent: `id`, `status` and `output` items. -/
structure Response where
  id : String
  status : String
  output : List Item
deriving Repr, DecidableEq

/-- Python `AttributeError`: raised when an attribute access fails, carrying
the name of the missing attribute. -/
inductive AttrError where
  | noneHasNoAttr (attr : String)
deriving Repr, DecidableEq

/-- `Agent.requires_user_input` (cua.py lines 114-119): explicitly guards the
`None` response, then checks whether the last output item is an assistant
message. -/
def Agent.requiresUserInput (response : Option Response) : Bool :=
  match response with
  | none => true
  | some r =>
    if r.output.length == 0 then true
    else
      match r.output.getLast? with
      | some (.message role _) => role == "assistant"
      | _ => false

/-- `Agent.requires_consent` (cua.py lines 121-123): reads `self.response.output`
with no `None` guard, so a held `None` response raises `AttributeError`. -/
def Agent.requiresConsent (response : Option Response) : Except AttrError Bool :=
  match response with
  | none => .error (.noneHasNoAttr "output")
  | some r => .ok (r.output.any fun item => item.type == "computer_call")

/-- The safety checks of a computer-call item (empty for other items). -/
def Item.pendingSafetyChecksOf : Item → List String
  | .computerCall _ _ checks => checks
  | _ => []

/-- `Agent.pending_safety_checks` (cua.py lines 125-128): flattens the checks
of all computer-call items; no `None` guard. -/
def Agent.pendingSafetyChecks (response : Option Response) : Except AttrError (List String) :=
  match response with
  | none => .error (.noneHasNoAttr "output")
  | some r =>
    .ok ((r.output.filter fun item => item.type == "computer_call").flatMap
      Item.pendingSafetyChecksOf)

/-- The summary texts of a reasoning item (empty for other items). -/
def Item.summaryOf : Item → List String
  | .reasoning summary => summary
  | _ => []

/-- `Agent.reasoning_summary` (cua.py lines 130-133): joins the summary texts
of all reasoning items; no `None` guard. -/
def Agent.reasoningSummary (response : Option Response) : Except AttrError String :=
  match response with
  | none => .error (.noneHasNoAttr "output")
  | some r =>
    .ok (String.join
      (((r.output.filter fun item => item.type == "reasoning").flatMap Item.summaryOf)))

/-- `Agent.messages` (cua.py lines 135-144): guarded by `if self.response`, so a
held `None` response yields the empty list. -/
def Agent.messages (response : Option Response) : List String :=
  match response with
  | none => []
  | some r =>
    r.output.flatMap fun item =>
      match item with
      | .message _ content =>
        (content.filter fun c => c.type == "output_text").map fun c => c.text
      | _ => []

/-- The ordered list of actions carried by computer-call items of a response:
the payload of the `Agent.actions` property (cua.py lines 146-157). -/
def Agent.actionsList (r : Response) : List Action :=
  r.output.filterMap fun item =>
    match item with
    | .computerCall _ a _ => some a
    | _ => none

/-- `Agent.actions` (cua.py lines 146-157): reads `self.response.output` with
no `None` guard. -/
def Agent.actions (response : Option Response) : Except AttrError (List Action) :=
  match response with
  | none => .error (.noneHasNoAttr "output")
  | some r => .ok (Agent.actionsList r)

/-- The attribute names assigned by `Agent.__init__` (cua.py lines 102-108), in
order.  The last assignment writes the misspelled name `repsonse`, so the
attribute `response` is never created by the constructor. -/
def Agent.initAttrs : List String :=
  ["client", "model", "computer", "logger", "tools", "repsonse"]

/-- A response holding a single assistant message and nothing else. -/
def msgOnlyResponse : Response :=
  { id := "resp1", status := "completed",
    output := [.message "assistant" [{ type := "output_text", text := "done" }]] }

/-- A response holding a single computer call and nothing else. -/
def ccOnlyResponse : Response :=
  { id := "resp2", status := "completed",
    output := [.computerCall "call1" (.click 10 20 "left") []] }

/-- Truncation toward zero: Python `int(...)` applied to a rational value. -/
def pyInt (q : ℚ) : Int := if q < 0 then ⌈q⌉ else ⌊q⌋

/-- The uniform scale ratio `min(width / screen_width, height / screen_height)`
computed in `Scaler.screenshot` and in `Scaler._point_to_screen_coords`. -/
def Scaler.ratio (width height screenWidth screenHeight : ℚ) : ℚ :=
  min (width / screenWidth) (height / screenHeight)

/-- `Scaler._point_to_screen_coords` (cua.py lines 91-96): divide the logical
point by the ratio and truncate with `int(...)`.  `screenWidth` and
`screenHeight` are the recorded real screen dimensions, which
`Scaler.__init__` (lines 15-19) initializes to `-1` until a screenshot
records real ones. -/
def Scaler.pointToScreenCoords (width height screenWidth screenHeight x y : ℚ) :
    Int × Int :=
  let r := Scaler.ratio width height screenWidth screenHeight
  (pyInt (x / r), pyInt (y / r))

/-- The geometric layout produced by `Scaler.screenshot`: resized image size,
canvas size, paste origin and canvas fill color. -/
structure ScreenshotLayout where
  ratio : ℚ
  resized : Nat × Nat
  canvas : Nat × Nat
  origin : Nat × Nat
  fill : Nat × Nat × Nat
deriving Repr, DecidableEq

/-- `Scaler.screenshot` geometry (cua.py lines 47-55): record the real size,
compute the uniform ratio, resize to `(int(sw * ratio), int(sh * ratio))`,
create a black RGB canvas of exactly the logical dimensions and paste the
resized image at the origin. -/
def Scaler.screenshotLayout (width height screenWidth screenHeight : ℕ) :
    ScreenshotLayout :=
  let r := Scaler.ratio (width : ℚ) (height : ℚ) (screenWidth : ℚ) (screenHeight : ℚ)
  { ratio := r
    resized := ((pyInt (screenWidth * r)).toNat, (pyInt (screenHeight * r)).toNat)
    canvas := (width, height)
    origin := (0, 0)
    fill := (0, 0, 0) }

/-- A pyautogui invocation recorded by a driver primitive. -/
inductive GuiEvent where
  | moveTo (x y : Int)
  | clickAt (x y : Int) (button : String)
  | doubleClickAt (x y : Int)
  | vscroll (clicks x y : Int)
  | hscroll (clicks x y : Int)
  | dragTo (x y : Int)
deriving Repr, DecidableEq

/-- `LocalComputer.click` (local_computer.py lines 42-47): move and click only
when the point lies inside the current screen dimensions, mapping the `wheel`
button to `middle`; otherwise fall through and perform nothing.  The result
is the sequence of pyautogui calls made; no exception is raised on the
fall-through path. -/
def LocalComputer.click (width height x y : Int) (button : String) : List GuiEvent :=
  if 0 ≤ x ∧ x < width ∧ 0 ≤ y ∧ y < height then
    let b := if button == "wheel" then "middle" else button
    [.moveTo x y, .clickAt x y b]
  else []

/-- `LocalComputer.double_click` (local_computer.py lines 49-53): same bounds
guard as `click`, with nothing performed outside the screen. -/
def LocalComputer.doubleClick (width height x y : Int) : List GuiEvent :=
  if 0 ≤ x ∧ x < width ∧ 0 ≤ y ∧ y < height then
    [.moveTo x y, .doubleClickAt x y]
  else []

/-- `LocalComputer.scroll` (local_computer.py lines 55-57): unconditional. -/
def LocalComputer.scroll (x y scrollX scrollY : Int) : List GuiEvent :=
  [.vscroll (-scrollY) x y, .hscroll scrollX x y]

/-- `LocalComputer.move` (local_computer.py lines 65-66): unconditional. -/
def LocalComputer.move (x y : Int) : List GuiEvent :=
  [.moveTo x y]

/-- `LocalComputer.drag` (local_computer.py lines 82-90): move to the first
path point and drag to each later one, but only when the path holds at least
two points; shorter paths perform nothing. -/
def LocalComputer.drag (path : List (Int × Int)) : List GuiEvent :=
  if 2 ≤ path.length then
    match path with
    | [] => []
    | p :: rest => .moveTo p.1 p.2 :: rest.map fun q => GuiEvent.dragTo q.1 q.2
  else []

/-- Strip a literal character sequence, returning the remainder on a match. -/
def stripLit : List Char → List Char → Option (List Char)
  | [], rest => some rest
  | _ :: _, [] => none
  | p :: ps, c :: cs => if p = c then stripLit ps cs else none

/-- Numeric value of a digit run: Python `int(...)` of the matched group. -/
def digitsToNat (ds : List Char) : Nat :=
  ds.foldl (fun acc c => 10 * acc + (c.toNat - '0'.toNat)) 0

/-- Match the rate-limit pattern at the current position: the literal
`Please try again in `, one or more digits, then `s`. -/
def matchRetryAt (cs : List Char) : Option Nat :=
  match stripLit "Please try again in ".toList cs with
  | none => none
  | some rest =>
    let ds := rest.takeWhile Char.isDigit
    if ds.isEmpty then none
    else
      match rest.drop ds.length with
      | 's' :: _ => some (digitsToNat ds)
      | _ => none

/-- Leftmost search for the rate-limit pattern, as `re.search` performs. -/
def searchRetry : List Char → Option Nat
  | [] => none
  | c :: cs =>
    match matchRetryAt (c :: cs) with
    | some n => some n
    | none => searchRetry cs

/-- The wait parse of `Agent.continue_task` (cua.py lines 232-233):
`re.search` for `Please try again in (\d+)s` in the error message, then
`int` of the digit group; `none` when the pattern does not occur. -/
def parseRetryWait (message : String) : Option Nat :=
  searchRetry message.toList

/-- A request-payload entry built while draining a prior response. -/
inductive OutputEntry where
  | computerCallOutput (callId : String) (imageUrl : String) (acknowledged : List String)
  | functionCallOutput (callId : String) (output : String)
  | userMessage (content : String)
deriving Repr, DecidableEq

/-- An exception propagating out of `Agent.continue_task`. -/
inductive TurnError where
  | unknownTool (name : String)
  | unsupportedItem (itemType : String)
  | toolRaised (name : String)
  | indexError
  | assertNotCompleted
  | modelFailure (message : String)
deriving Repr, DecidableEq

/-- The computer seen by the drain loop: it serves the successive screenshots
taken after executed actions. -/
structure Computer where
  shot : Nat → String

/-- The registered side tools: name to handler, a raw JSON argument string to
a serialized result or a raised exception. -/
abbrev ToolRegistry := List (String × (String → Except TurnError String))

/-- The drain loop of `Agent.continue_task` (cua.py lines 170-210) over the
remaining output items.  `allActions` is `self.actions` of the full prior
response: the loop body reads `self.actions[0]`, the first computer call's
action, for every computer-call item.  `allChecks` is
`self.pending_safety_checks` of the full prior response, echoed on every
computer-call output.  `shots` counts the screenshots taken so far.  Returns
the built outputs, the actions executed on the computer and the final
screenshot count, or the raised exception. -/
def drainItems (tools : ToolRegistry) (computer : Computer)
    (allActions : List Action) (allChecks : List String) :
    List Item → Nat → Except TurnError (List OutputEntry × List Action × Nat)
  | [], shots => .ok ([], [], shots)
  | .computerCall callId _ _ :: rest, shots =>
    match allActions with
    | [] => .error .indexError
    | a :: _ =>
      match drainItems tools computer allActions allChecks rest (shots + 1) with
      | .error e => .error e
      | .ok (outs, trace, s) =>
        .ok (OutputEntry.computerCallOutput callId
              ("data:image/png;base64," ++ computer.shot shots) allChecks :: outs,
            (if a = Action.screenshot then [] else [a]) ++ trace, s)
  | .functionCall callId name args :: rest, shots =>
    match tools.lookup name with
    | none => .error (.unknownTool name)
    | some func =>
      match func args with
      | .error e => .error e
      | .ok result =>
        match drainItems tools computer allActions allChecks rest shots with
        | .error e => .error e
        | .ok (outs, trace, s) =>
          .ok (OutputEntry.functionCallOutput callId result :: outs, trace, s)
  | .message _ _ :: rest, shots => drainItems tools computer allActions allChecks rest shots
  | .reasoning _ :: rest, shots => drainItems tools computer allActions allChecks rest shots
  | .other itemType :: _, _ => .error (.unsupportedItem itemType)

/-- The drain phase of `Agent.continue_task` for the held prior response; no
prior response drains to an empty payload. -/
def drainOf (tools : ToolRegistry) (computer : Computer) (prior : Option Response) :
    Except TurnError (List OutputEntry × List Action) :=
  match prior with
  | none => .ok ([], [])
  | some r =>
    match drainItems tools computer (Agent.actionsList r)
        ((r.output.filter fun item => item.type == "computer_call").flatMap
          Item.pendingSafetyChecksOf) r.output 0 with
    | .error e => .error e
    | .ok (outs, trace, _) => .ok (outs, trace)

/-- The outcome of one `client.responses.create` attempt. -/
inductive ModelResult where
  | ok (response : Response)
  | rateLimit (message : String)
  | failure (message : String)
deriving Repr, DecidableEq

/-- The model channel: the outcome of each successive `create` attempt. -/
abbrev ModelChannel := Nat → ModelResult

/-- The observable result of the submit/retry phase. -/
structure LoopResult where
  response : Option Response
  attempts : Nat
  sleeps : List Nat
  logs : List String
  outcome : Except TurnError Unit

/-- The submit/retry loop of `Agent.continue_task` (cua.py lines 214-238):
up to `remaining` further attempts.  Each iteration sleeps the current wait,
then submits.  A `completed` response is stored and the loop returns; any
other status fails the completion `assert` while that response stays stored;
a rate-limit error parses the suggested wait (default 10) and logs it; any
other failure propagates with no response stored.  Exhausting every attempt
logs `Max retries exceeded.` and returns normally. -/
def retryLoop (channel : ModelChannel) : Nat → Nat → Nat → LoopResult
  | 0, idx, _ =>
    { response := none, attempts := idx, sleeps := [],
      logs := ["Max retries exceeded."], outcome := .ok () }
  | remaining + 1, idx, wait =>
    match channel idx with
    | .ok resp =>
      if resp.status == "completed" then
        { response := some resp, attempts := idx + 1, sleeps := [wait],
          logs := [], outcome := .ok () }
      else
        { response := some resp, attempts := idx + 1, sleeps := [wait],
          logs := [], outcome := .error .assertNotCompleted }
    | .failure msg =>
      { response := none, attempts := idx + 1, sleeps := [wait],
        logs := [], outcome := .error (.modelFailure msg) }
    | .rateLimit msg =>
      let w := (parseRetryWait msg).getD 10
      let r2 := retryLoop channel remaining (idx + 1) w
      { response := r2.response, attempts := r2.attempts,
        sleeps := wait :: r2.sleeps,
        logs := ("Rate limit exceeded. Waiting for " ++ toString w ++ " seconds.") :: r2.logs,
        outcome := r2.outcome }

/-- The observable result of one `Agent.continue_task` call. -/
structure TurnResult where
  response : Option Response
  inputs : List OutputEntry
  trace : List Action
  attempts : Nat
  sleeps : List Nat
  logs : List String
  outcome : Except TurnError Unit

/-- `Agent.continue_task` (cua.py lines 162-238): drain the held prior
response in item order, building the next request payload; a drain exception
leaves the held response untouched with nothing submitted.  Otherwise append
the optional user message, clear the held response to `None`, and run the
submit/retry loop. -/
def continueTask (tools : ToolRegistry) (computer : Computer)
    (prior : Option Response) (userMessage : String) (channel : ModelChannel) :
    TurnResult :=
  match drainOf tools computer prior with
  | .error e =>
    { response := prior, inputs := [], trace := [], attempts := 0,
      sleeps := [], logs := [], outcome := .error e }
  | .ok (outs, trace) =>
    let inputs := outs ++ (if userMessage == "" then [] else [OutputEntry.userMessage userMessage])
    let lr := retryLoop channel 10 0 0
    { response := lr.response, inputs := inputs, trace := trace,
      attempts := lr.attempts, sleeps := lr.sleeps, logs := lr.logs,
      outcome := lr.outcome }

/-- Is the item a computer call or a function call? -/
def Item.isCall : Item → Bool
  | .computerCall .. => true
  | .functionCall .. => true
  | _ => false

/-- Is the item a computer call? -/
def Item.isComputerCall : Item → Bool
  | .computerCall .. => true
  | _ => false

/-- Output kind and call id that draining one call item must produce. -/
def Item.expectedOutputKey : Item → String × String
  | .computerCall callId _ _ => ("computer_call_output", callId)
  | .functionCall callId _ _ => ("function_call_output", callId)
  | _ => ("", "")

/-- Kind and call id of a built payload entry. -/
def OutputEntry.key : OutputEntry → String × String
  | .computerCallOutput callId _ _ => ("computer_call_output", callId)
  | .functionCallOutput callId _ => ("function_call_output", callId)
  | .userMessage _ => ("user_message", "")

/-- Expected sleep durations when every attempt is rate limited: the first
sleep is the initial wait, each later sleep the parsed wait of the previous
failure with fallback 10. -/
def expectedSleeps (msgs : Nat → String) : Nat → Nat → Nat → List Nat
  | 0, _, _ => []
  | f + 1, idx, wait =>
    wait :: expectedSleeps msgs f (idx + 1) ((parseRetryWait (msgs idx)).getD 10)

/-- Expected log lines when every attempt is rate limited. -/
def expectedLogs (msgs : Nat → String) : Nat → Nat → List String
  | 0, _ => ["Max retries exceeded."]
  | f + 1, idx =>
    ("Rate limit exceeded. Waiting for " ++
      toString ((parseRetryWait (msgs idx)).getD 10) ++ " seconds.")
      :: expectedLogs msgs f (idx + 1)

/-- A computer whose every screenshot is the fixed string `shot`. -/
def constComputer : Computer := { shot := fun _ => "shot" }

/-- A registry holding the single tool `lookup` whose handler returns `42`. -/
def exampleTools : ToolRegistry := [("lookup", fun _ => .ok "42")]

/-- The three-item response of the drain-ordering scenario: computer call `A`,
function call `B`, computer call `C`. -/
def drainScenario : Response :=
  { id := "resp3", status := "completed",
    output :=
      [.computerCall "A" (.move 1 2) [],
       .functionCall "B" "lookup" "\x7b\x7d",
       .computerCall "C" (.click 3 4 "left") []] }

/-- A two-computer-call response carrying two distinct actions. -/
def twoCallResponse : Response :=
  { id := "resp4", status := "completed",
    output :=
      [.computerCall "A" (.move 1 2) [],
       .computerCall "C" (.click 3 4 "left") []] }

/-- A channel that always reports a rate limit without a parseable wait. -/
def alwaysRateLimited : ModelChannel := fun _ => .rateLimit "Too many requests."

/-- Rate-limit messages used by the retry witness: a parseable three-second
hint first, unparseable details afterwards. -/
def witnessMessages : Nat → String := fun n =>
  if n == 0 then "Rate limit is exceeded. Please try again in 3s." else "slow down"

/-- A channel rate-limiting every attempt with `witnessMessages`. -/
def witnessChannel : ModelChannel := fun n => .rateLimit (witnessMessages n)

/-- A channel whose first result is a response that is not `completed`. -/
def inProgressChannel : ModelChannel := fun _ =>
  .ok { id := "bad", status := "in_progress", output := [] }

/-- A channel that immediately returns a completed response. -/
def okChannel : ModelChannel := fun _ =>
  .ok { id := "done", status := "completed", output := [.message "assistant" []] }

/-- A response holding one function call to a name no registry registers. -/
def unknownToolResponse : Response :=
  { id := "resp5", status := "completed",
    output := [.functionCall "fc1" "mytool" "\x7b\x7d"] }

/-- C10: with no current response held (the `None` state that `start_task`
establishes and that a failed submission leaves behind),
`requires_user_input` returns `true` and `messages` returns the empty list,
while `requires_consent`, `pending_safety_checks`, `reasoning_summary` and
`actions` each raise `AttributeError` instead of returning an empty or false
value: they require a non-`None` current response. -/
theorem accessors_not_total_on_none :
    Agent.requiresUserInput none = true ∧
    Agent.messages none = [] ∧
    Agent.requiresConsent none = .error (.noneHasNoAttr "output") ∧
    Agent.pendingSafetyChecks none = .error (.noneHasNoAttr "output") ∧
    Agent.reasoningSummary none = .error (.noneHasNoAttr "output") ∧
    Agent.actions none = .error (.noneHasNoAttr "output") :=
  ⟨rfl, rfl, rfl, rfl, rfl, rfl⟩

/-- C4: evaluation at the failing input.  `Agent.__init__` assigns the
misspelled attribute name `repsonse` and never `response`, so on a freshly
initialized agent the `requires_user_input` property raises
`AttributeError` instead of returning `true`.  The remaining parts of the
claim hold of the accessor code once a response is held: a response of one
sole assistant message gives `requires_user_input = true`, and a response of
one computer call gives `requires_user_input = false` with
`requires_consent = true`. -/
theorem freshAgent_missing_response_attr :
    Agent.initAttrs.contains "response" = false ∧
    Agent.initAttrs.contains "repsonse" = true ∧
    Agent.requiresUserInput (some msgOnlyResponse) = true ∧
    Agent.requiresUserInput (some ccOnlyResponse) = false ∧
    Agent.requiresConsent (some ccOnlyResponse) = .ok true :=
  ⟨rfl, rfl, rfl, rfl, rfl⟩

/-- C3: evaluation at the failing input.  Before any screenshot the recorded
real dimensions still hold the `__init__` sentinel `-1`, and translating the
point `(100, 100)` on a `1024 × 768` logical canvas silently computes
`(0, 0)` from the sentinel ratio `min(1024 / -1, 768 / -1) = -1024`, instead
of failing explicitly. -/
theorem translate_before_screenshot_silent :
    Scaler.pointToScreenCoords 1024 768 (-1) (-1) 100 100 = (0, 0) := by
  rw [Scaler.pointToScreenCoords, Scaler.ratio]
  norm_num [pyInt, Prod.ext_iff]

/-- C8 counterexample: an out-of-bounds click, an out-of-bounds double click
and a one-point drag each make no pyautogui call and raise nothing: the
driver degenerates to a silent no-op. -/
theorem click_out_of_bounds_noop :
    LocalComputer.click 1920 1080 2000 500 "left" = [] ∧
    LocalComputer.doubleClick 1920 1080 (-5) 10 = [] ∧
    LocalComputer.drag [(0, 0)] = [] := by
  refine ⟨?_, ?_, ?_⟩ <;> decide

/-- The drag guard: no pyautogui call is made exactly for paths shorter than
two points. -/
theorem drag_empty_iff (path : List (Int × Int)) :
    LocalComputer.drag path = [] ↔ path.length < 2 := by
  cases path with
  | nil => simp [LocalComputer.drag]
  | cons p rest =>
    by_cases h : 2 ≤ (p :: rest).length
    · simp only [LocalComputer.drag, if_pos h]
      simp only [List.length_cons] at h ⊢
      simp; omega
    · simp only [LocalComputer.drag, if_neg h]
      simp only [List.length_cons] at h ⊢
      simp; omega

/-- C8 amended: `click` either performs the move and the click (with `wheel`
mapped to `middle`) or performs nothing at all, and it performs nothing
exactly when the point lies outside the current screen bounds;
`double_click` likewise; `drag` performs nothing exactly when the path has
fewer than two points.  None of these paths reports an error. -/
theorem click_bounds_guard (width height x y : Int) (button : String)
    (path : List (Int × Int)) :
    (LocalComputer.click width height x y button = [] ∨
      LocalComputer.click width height x y button =
        [.moveTo x y, .clickAt x y (if button == "wheel" then "middle" else button)]) ∧
    (LocalComputer.click width height x y button = [] ↔
      ¬(0 ≤ x ∧ x < width ∧ 0 ≤ y ∧ y < height)) ∧
    (LocalComputer.doubleClick width height x y = [] ↔
      ¬(0 ≤ x ∧ x < width ∧ 0 ≤ y ∧ y < height)) ∧
    (LocalComputer.drag path = [] ↔ path.length < 2) := by
  by_cases h : 0 ≤ x ∧ x < width ∧ 0 ≤ y ∧ y < height
  all_goals refine ⟨?_, ?_, ?_, ?_⟩
  · right; simp [LocalComputer.click, h]
  · simp [LocalComputer.click, h]
  · simp [LocalComputer.doubleClick, h]
  · exact drag_empty_iff path
  · left; simp [LocalComputer.click, h]
  · simp [LocalComputer.click, h]
  · simp [LocalComputer.doubleClick, h]
  · exact drag_empty_iff path

/-- The one-coordinate round trip bound: dividing by a ratio in `(0, 1]`,
truncating, and multiplying back moves a nonnegative value by at most one
unit. -/
theorem ratio_mul_pyInt_div_bounds (r t : ℚ) (ht : 0 ≤ t) (h0 : 0 < r)
    (h1 : r ≤ 1) : |r * (pyInt (t / r) : ℚ) - t| ≤ 1 := by
  have hdiv : 0 ≤ t / r := div_nonneg ht h0.le
  rw [pyInt, if_neg (not_lt.mpr hdiv), abs_le]
  have hc : r * (t / r) = t := by field_simp
  constructor
  · have hfl : t / r - 1 < (⌊t / r⌋ : ℚ) := Int.sub_one_lt_floor _
    have hm := mul_lt_mul_of_pos_left hfl h0
    rw [mul_sub, mul_one, hc] at hm
    linarith
  · have hfl : (⌊t / r⌋ : ℚ) ≤ t / r := Int.floor_le _
    have hm := mul_le_mul_of_nonneg_left hfl h0.le
    rw [hc] at hm
    linarith

/-- C6 counterexample: with a 100 × 100 logical canvas over a 10 × 10 real
screen the ratio is 10 — positive, so allowed by the claim — yet the
in-canvas point (5, 5) translates to real (0, 0) and scales back to (0, 0),
five units away from the original. -/
theorem toRealCoords_roundTrip_fails_for_large_ratio :
    0 < Scaler.ratio 100 100 10 10 ∧ (0 : ℚ) ≤ 5 ∧ (5 : ℚ) ≤ 100 ∧
    ¬(|Scaler.ratio 100 100 10 10 *
        ((Scaler.pointToScreenCoords 100 100 10 10 5 5).1 : ℚ) - 5| ≤ 1) := by
  refine ⟨by norm_num [Scaler.ratio], by norm_num, by norm_num, ?_⟩
  rw [Scaler.pointToScreenCoords, Scaler.ratio]
  norm_num [pyInt]

/-- C6 amended: for a point within the logical canvas, `toRealCoords`
followed by the forward ratio multiply returns to within one unit of the
original, provided the ratio lies in `(0, 1]`; for ratios above 1 the round
trip can err by up to the ratio, as the counterexample shows. -/
theorem toRealCoords_roundTrip (w h sw sh x y : ℚ)
    (hx0 : 0 ≤ x) (hxw : x ≤ w) (hy0 : 0 ≤ y) (hyh : y ≤ h)
    (hr0 : 0 < Scaler.ratio w h sw sh) (hr1 : Scaler.ratio w h sw sh ≤ 1) :
    |Scaler.ratio w h sw sh * ((Scaler.pointToScreenCoords w h sw sh x y).1 : ℚ) - x| ≤ 1 ∧
    |Scaler.ratio w h sw sh * ((Scaler.pointToScreenCoords w h sw sh x y).2 : ℚ) - y| ≤ 1 := by
  constructor
  · simpa only [Scaler.pointToScreenCoords] using
      ratio_mul_pyInt_div_bounds (Scaler.ratio w h sw sh) x hx0 hr0 hr1
  · simpa only [Scaler.pointToScreenCoords] using
      ratio_mul_pyInt_div_bounds (Scaler.ratio w h sw sh) y hy0 hr0 hr1

/-- C6 witness: the amended round trip at canvas 100 × 100, real screen
200 × 200 (ratio one half) and point (7, 7). -/
theorem toRealCoords_roundTrip_witness :
    ((0 : ℚ) ≤ 7 ∧ (7 : ℚ) ≤ 100 ∧ 0 < Scaler.ratio 100 100 200 200 ∧
      Scaler.ratio 100 100 200 200 ≤ 1) ∧
    |Scaler.ratio 100 100 200 200 *
        ((Scaler.pointToScreenCoords 100 100 200 200 7 7).1 : ℚ) - 7| ≤ 1 ∧
    |Scaler.ratio 100 100 200 200 *
        ((Scaler.pointToScreenCoords 100 100 200 200 7 7).2 : ℚ) - 7| ≤ 1 :=
  ⟨⟨by norm_num, by norm_num, by norm_num [Scaler.ratio], by norm_num [Scaler.ratio]⟩,
   toRealCoords_roundTrip 100 100 200 200 7 7 (by norm_num) (by norm_num)
     (by norm_num) (by norm_num) (by norm_num [Scaler.ratio])
     (by norm_num [Scaler.ratio])⟩

/-- The resized side fits within the corresponding canvas side whenever the
ratio is nonnegative and bounded by that side's own scale ratio. -/
theorem resized_side_le (w sw : ℕ) (r : ℚ) (hr0 : 0 ≤ r)
    (hsw : (0 : ℚ) < sw) (hle : r ≤ (w : ℚ) / sw) :
    (pyInt (sw * r)).toNat ≤ w := by
  have h1 : 0 ≤ (sw : ℚ) * r := mul_nonneg hsw.le hr0
  rw [pyInt, if_neg (not_lt.mpr h1)]
  have h2 : (sw : ℚ) * r ≤ (w : ℚ) := by
    calc (sw : ℚ) * r ≤ sw * ((w : ℚ) / sw) := mul_le_mul_of_nonneg_left hle hsw.le
    _ = w := by field_simp
  have h3 : ⌊(sw : ℚ) * r⌋ ≤ (w : ℤ) := by
    simpa using Int.floor_le_floor h2
  exact Int.toNat_le.mpr h3

/-- C7: for positive real dimensions the screenshot pipeline resizes both
sides by the single uniform ratio `min(lw / rw, lh / rh)` (aspect preserved),
pastes at the origin of a black canvas of exactly the logical dimensions with
the resized image fitting inside it, so the output image is always exactly
the logical size regardless of the real aspect ratio. -/
theorem screenshot_letterbox (w h sw sh : ℕ) (hsw : 0 < sw) (hsh : 0 < sh) :
    (Scaler.screenshotLayout w h sw sh).canvas = (w, h) ∧
    (Scaler.screenshotLayout w h sw sh).origin = (0, 0) ∧
    (Scaler.screenshotLayout w h sw sh).fill = (0, 0, 0) ∧
    (Scaler.screenshotLayout w h sw sh).ratio = min ((w : ℚ) / sw) ((h : ℚ) / sh) ∧
    (Scaler.screenshotLayout w h sw sh).resized =
      ((pyInt (sw * (Scaler.screenshotLayout w h sw sh).ratio)).toNat,
       (pyInt (sh * (Scaler.screenshotLayout w h sw sh).ratio)).toNat) ∧
    (Scaler.screenshotLayout w h sw sh).resized.1 ≤ w ∧
    (Scaler.screenshotLayout w h sw sh).resized.2 ≤ h := by
  have hswq : (0 : ℚ) < sw := by exact_mod_cast hsw
  have hshq : (0 : ℚ) < sh := by exact_mod_cast hsh
  have hr0 : 0 ≤ Scaler.ratio (w : ℚ) (h : ℚ) (sw : ℚ) (sh : ℚ) := by
    rw [Scaler.ratio]
    exact le_min (div_nonneg (Nat.cast_nonneg w) hswq.le)
      (div_nonneg (Nat.cast_nonneg h) hshq.le)
  refine ⟨rfl, rfl, rfl, rfl, rfl, ?_, ?_⟩
  · exact resized_side_le w sw _ hr0 hswq (min_le_left _ _)
  · exact resized_side_le h sh _ hr0 hshq (min_le_right _ _)

/-- C7 witness: the letterbox guarantee at logical 1024 × 768 over a real
1920 × 1080 screen. -/
theorem screenshot_letterbox_witness :
    (0 < 1920 ∧ 0 < 1080) ∧
    ((Scaler.screenshotLayout 1024 768 1920 1080).canvas = (1024, 768) ∧
     (Scaler.screenshotLayout 1024 768 1920 1080).origin = (0, 0) ∧
     (Scaler.screenshotLayout 1024 768 1920 1080).fill = (0, 0, 0) ∧
     (Scaler.screenshotLayout 1024 768 1920 1080).ratio =
       min ((1024 : ℚ) / 1920) ((768 : ℚ) / 1080) ∧
     (Scaler.screenshotLayout 1024 768 1920 1080).resized =
       ((pyInt (1920 * (Scaler.screenshotLayout 1024 768 1920 1080).ratio)).toNat,
        (pyInt (1080 * (Scaler.screenshotLayout 1024 768 1920 1080).ratio)).toNat) ∧
     (Scaler.screenshotLayout 1024 768 1920 1080).resized.1 ≤ 1024 ∧
     (Scaler.screenshotLayout 1024 768 1920 1080).resized.2 ≤ 768) :=
  ⟨⟨by norm_num, by norm_num⟩,
   screenshot_letterbox 1024 768 1920 1080 (by norm_num) (by norm_num)⟩

/-- On a channel that rate-limits every attempt, the retry loop consumes all
its fuel, stores no response, returns normally, and its sleeps and logs
follow the parsed waits. -/
theorem retryLoop_rateLimited (channel : ModelChannel) (msgs : Nat → String)
    (hch : ∀ n, channel n = .rateLimit (msgs n)) :
    ∀ (fuel idx wait : Nat),
      retryLoop channel fuel idx wait =
        { response := none, attempts := idx + fuel,
          sleeps := expectedSleeps msgs fuel idx wait,
          logs := expectedLogs msgs fuel idx, outcome := .ok () } := by
  intro fuel
  induction fuel with
  | zero =>
    intro idx wait
    simp [retryLoop, expectedSleeps, expectedLogs]
  | succ f ih =>
    intro idx wait
    rw [retryLoop, hch idx]
    simp only [ih (idx + 1)]
    simp only [expectedSleeps, expectedLogs, LoopResult.mk.injEq]
    refine ⟨?_, ?_, ?_, ?_, ?_⟩ <;> first | omega | trivial

/-- C2 counterexample: ten consecutive rate-limit failures make
`continue_task` return normally to its caller — the outcome is `ok`, not an
error — with no response stored; the exhaustion is only written to the log. -/
theorem rateLimit_exhaustion_returns_normally :
    (continueTask [] constComputer none "" alwaysRateLimited).outcome = .ok () ∧
    (continueTask [] constComputer none "" alwaysRateLimited).attempts = 10 ∧
    (continueTask [] constComputer none "" alwaysRateLimited).response = none ∧
    (continueTask [] constComputer none "" alwaysRateLimited).logs.getLast? =
      some "Max retries exceeded." :=
  ⟨rfl, rfl, rfl, rfl⟩

/-- C2 amended: on rate-limit signals `continue_task` parses the suggested
wait from each error detail (fallback 10 seconds when unparseable), sleeps
it before the next attempt, and retries up to 10 attempts in total; for a
sequence of 10 consecutive rate-limit failures it makes exactly 10 attempts,
never stores a successful response, logs "Max retries exceeded." as its last
log line when a logger is configured — and then returns normally: no
"max retries exceeded" exception reaches the caller. -/
theorem rateLimit_bounded_retry (tools : ToolRegistry) (computer : Computer)
    (prior : Option Response) (userMessage : String) (channel : ModelChannel)
    (msgs : Nat → String) (payload : List OutputEntry × List Action)
    (hdrain : drainOf tools computer prior = .ok payload)
    (hch : ∀ n, channel n = .rateLimit (msgs n)) :
    (continueTask tools computer prior userMessage channel).attempts = 10 ∧
    (continueTask tools computer prior userMessage channel).response = none ∧
    (continueTask tools computer prior userMessage channel).outcome = .ok () ∧
    (continueTask tools computer prior userMessage channel).sleeps =
      [0, (parseRetryWait (msgs 0)).getD 10, (parseRetryWait (msgs 1)).getD 10,
       (parseRetryWait (msgs 2)).getD 10, (parseRetryWait (msgs 3)).getD 10,
       (parseRetryWait (msgs 4)).getD 10, (parseRetryWait (msgs 5)).getD 10,
       (parseRetryWait (msgs 6)).getD 10, (parseRetryWait (msgs 7)).getD 10,
       (parseRetryWait (msgs 8)).getD 10] ∧
    (continueTask tools computer prior userMessage channel).logs.getLast? =
      some "Max retries exceeded." := by
  obtain ⟨outs, trace⟩ := payload
  simp only [continueTask, hdrain]
  rw [retryLoop_rateLimited channel msgs hch 10 0 0]
  refine ⟨rfl, rfl, rfl, rfl, ?_⟩
  show (expectedLogs msgs 10 0).getLast? = some "Max retries exceeded."
  rfl

/-- C2 witness: the amended retry behavior on a concrete channel whose first
failure hints three seconds and whose later details are unparseable. -/
theorem rateLimit_bounded_retry_witness :
    (continueTask [] constComputer none "" witnessChannel).attempts = 10 ∧
    (continueTask [] constComputer none "" witnessChannel).response = none ∧
    (continueTask [] constComputer none "" witnessChannel).outcome = .ok () ∧
    (continueTask [] constComputer none "" witnessChannel).sleeps =
      [0, 3, 10, 10, 10, 10, 10, 10, 10, 10] ∧
    (continueTask [] constComputer none "" witnessChannel).logs.getLast? =
      some "Max retries exceeded." := by
  have h := rateLimit_bounded_retry [] constComputer none "" witnessChannel
    witnessMessages ([], []) rfl (fun n => rfl)
  refine ⟨h.1, h.2.1, h.2.2.1, ?_, h.2.2.2.2⟩
  rw [h.2.2.2.1]
  rfl

/-- A successful drain yields exactly one payload entry per call item, in
item order, whose kind and call id match that item; and, whenever the first
computer-call action of the response is not `screenshot`, the executed trace
repeats that single first action once per computer-call item. -/
theorem drainItems_ok_keys (tools : ToolRegistry) (computer : Computer)
    (allActions : List Action) (allChecks : List String) :
    ∀ (items : List Item) (shots : Nat) (outs : List OutputEntry)
      (trace : List Action) (s : Nat),
      drainItems tools computer allActions allChecks items shots = .ok (outs, trace, s) →
      outs.map OutputEntry.key = (items.filter Item.isCall).map Item.expectedOutputKey ∧
      (∀ a rest2, allActions = a :: rest2 → a ≠ Action.screenshot →
        trace = List.replicate (items.filter Item.isComputerCall).length a) := by
  intro items
  induction items with
  | nil =>
    intro shots outs trace s h
    simp only [drainItems, Except.ok.injEq, Prod.mk.injEq] at h
    obtain ⟨ho, ht, _⟩ := h
    subst ho; subst ht
    exact ⟨by simp [Item.isCall], fun a rest2 _ _ => by simp [Item.isComputerCall]⟩
  | cons item rest ih =>
    intro shots outs trace s h
    cases item with
    | computerCall cid a0 ch =>
      cases allActions with
      | nil => simp [drainItems] at h
      | cons a tl =>
        rw [drainItems] at h
        cases hrec : drainItems tools computer (a :: tl) allChecks rest (shots + 1) with
        | error e => rw [hrec] at h; simp at h
        | ok triple =>
          obtain ⟨outs2, trace2, s2⟩ := triple
          rw [hrec] at h
          simp only [Except.ok.injEq, Prod.mk.injEq] at h
          obtain ⟨ho, ht, _⟩ := h
          subst ho; subst ht
          obtain ⟨ihk, iht⟩ := ih (shots + 1) outs2 trace2 s2 hrec
          constructor
          · simp [Item.isCall, Item.expectedOutputKey, OutputEntry.key, ihk]
          · intro a2 rest2 heq hne
            injection heq with ha htl
            subst ha
            rw [if_neg hne, iht a tl rfl hne]
            simp [Item.isComputerCall, List.replicate_succ]
    | functionCall cid nm args =>
      rw [drainItems] at h
      cases hlk : tools.lookup nm with
      | none => simp [hlk] at h
      | some func =>
        simp only [hlk] at h
        cases hf : func args with
        | error e => simp [hf] at h
        | ok result =>
          simp only [hf] at h
          cases hrec : drainItems tools computer allActions allChecks rest shots with
          | error e => simp [hrec] at h
          | ok triple =>
            obtain ⟨outs2, trace2, s2⟩ := triple
            simp only [hrec, Except.ok.injEq, Prod.mk.injEq] at h
            obtain ⟨ho, ht, _⟩ := h
            subst ho; subst ht
            obtain ⟨ihk, iht⟩ := ih shots outs2 trace2 s2 hrec
            constructor
            · simp [Item.isCall, Item.expectedOutputKey, OutputEntry.key, ihk]
            · intro a2 rest2 heq hne
              rw [iht a2 rest2 heq hne]
              simp [Item.isComputerCall]
    | message role content =>
      rw [drainItems] at h
      obtain ⟨ihk, iht⟩ := ih shots outs trace s h
      refine ⟨by simpa [Item.isCall] using ihk, fun a2 rest2 heq hne => ?_⟩
      rw [iht a2 rest2 heq hne]
      simp [Item.isComputerCall]
    | reasoning summary =>
      rw [drainItems] at h
      obtain ⟨ihk, iht⟩ := ih shots outs trace s h
      refine ⟨by simpa [Item.isCall] using ihk, fun a2 rest2 heq hne => ?_⟩
      rw [iht a2 rest2 heq hne]
      simp [Item.isComputerCall]
    | other t => simp [drainItems] at h

/-- C1 counterexample: under the prior response holding computer call `A`
with a `move` action followed by computer call `C` with a distinct `click`
action, `continue_task` executes the first call's `move` action twice; the
second call's own action is never executed. -/
theorem secondCall_executes_first_action :
    twoCallResponse.output =
      [Item.computerCall "A" (.move 1 2) [],
       Item.computerCall "C" (.click 3 4 "left") []] ∧
    (continueTask [] constComputer (some twoCallResponse) "" okChannel).trace =
      [Action.move 1 2, Action.move 1 2] ∧
    Action.move 1 2 ≠ Action.click 3 4 "left" :=
  ⟨rfl, rfl, by decide⟩

/-- C1 amended: when draining a prior model response succeeds, the built
request payload has exactly one output entry per call item, in item order,
each entry of the matching kind and referencing that item's own call id — so
for `[ComputerCall(A), FunctionCall(B), ComputerCall(C)]` exactly three
entries in order `A`, `B`, `C` — but every computer-call item executes the
action of the *first* computer call of the response (`self.actions[0]`),
which coincides with the item's own action only when the response carries at
most one distinct computer-call action. -/
theorem drain_outputs_in_order (tools : ToolRegistry) (computer : Computer)
    (r : Response) (channel : ModelChannel)
    (outs : List OutputEntry) (trace : List Action)
    (hdrain : drainOf tools computer (some r) = .ok (outs, trace)) :
    (continueTask tools computer (some r) "" channel).inputs = outs ∧
    (continueTask tools computer (some r) "" channel).trace = trace ∧
    outs.map OutputEntry.key = (r.output.filter Item.isCall).map Item.expectedOutputKey ∧
    (∀ a rest2, Agent.actionsList r = a :: rest2 → a ≠ Action.screenshot →
      trace = List.replicate (r.output.filter Item.isComputerCall).length a) := by
  have hks := drainItems_ok_keys tools computer (Agent.actionsList r)
    ((r.output.filter fun item => item.type == "computer_call").flatMap
      Item.pendingSafetyChecksOf)
  rw [drainOf] at hdrain
  cases hdi : drainItems tools computer (Agent.actionsList r)
      ((r.output.filter fun item => item.type == "computer_call").flatMap
        Item.pendingSafetyChecksOf) r.output 0 with
  | error e => rw [hdi] at hdrain; simp at hdrain
  | ok triple =>
    obtain ⟨outs2, trace2, s2⟩ := triple
    rw [hdi] at hdrain
    simp only [Except.ok.injEq, Prod.mk.injEq] at hdrain
    obtain ⟨ho, ht⟩ := hdrain
    subst ho; subst ht
    obtain ⟨ihk, iht⟩ := hks r.output 0 outs2 trace2 s2 hdi
    have hdrain2 : drainOf tools computer (some r) = .ok (outs2, trace2) := by
      rw [drainOf, hdi]
    refine ⟨?_, ?_, ihk, iht⟩
    · simp [continueTask, hdrain2]
    · simp [continueTask, hdrain2]

/-- C1 witness: the amended drain guarantee at the concrete scenario
`[ComputerCall(A), FunctionCall(B), ComputerCall(C)]`. -/
theorem drain_outputs_in_order_witness :
    (continueTask exampleTools constComputer (some drainScenario) "" okChannel).inputs =
      [OutputEntry.computerCallOutput "A" "data:image/png;base64,shot" [],
       OutputEntry.functionCallOutput "B" "42",
       OutputEntry.computerCallOutput "C" "data:image/png;base64,shot" []] ∧
    [OutputEntry.computerCallOutput "A" "data:image/png;base64,shot" [],
     OutputEntry.functionCallOutput "B" "42",
     OutputEntry.computerCallOutput "C" "data:image/png;base64,shot" []].map OutputEntry.key =
      (drainScenario.output.filter Item.isCall).map Item.expectedOutputKey ∧
    [Action.move 1 2, Action.move 1 2] =
      List.replicate (drainScenario.output.filter Item.isComputerCall).length
        (Action.move 1 2) := by
  have h := drain_outputs_in_order exampleTools constComputer drainScenario okChannel
    [OutputEntry.computerCallOutput "A" "data:image/png;base64,shot" [],
     OutputEntry.functionCallOutput "B" "42",
     OutputEntry.computerCallOutput "C" "data:image/png;base64,shot" []]
    [Action.move 1 2, Action.move 1 2] rfl
  exact ⟨h.1, h.2.2.1,
    h.2.2.2 (Action.move 1 2) [Action.click 3 4 "left"] rfl (by decide)⟩

/-- A response holding a computer-call item has a nonempty action list. -/
theorem actionsList_ne_nil_of_mem (r : Response) (cid : String) (a : Action)
    (ch : List String) (hm : Item.computerCall cid a ch ∈ r.output) :
    Agent.actionsList r ≠ [] := by
  intro hnil
  rw [Agent.actionsList] at hnil
  have := List.filterMap_eq_nil_iff.mp hnil (Item.computerCall cid a ch) hm
  simp at this

/-- Draining items that contain a function call to an unregistered tool fails
with the unknown-tool error of some unregistered name, provided no item is of
an unsupported type and the registered handlers return normally. -/
theorem drainItems_unknownTool (tools : ToolRegistry) (computer : Computer)
    (allActions : List Action) (allChecks : List String) :
    ∀ (items : List Item) (shots : Nat),
      (∀ i ∈ items, ¬∃ t, i = Item.other t) →
      (∀ cid a ch, Item.computerCall cid a ch ∈ items → allActions ≠ []) →
      (∀ nm f, tools.lookup nm = some f → ∀ args, ∃ res, f args = .ok res) →
      (∃ cid nm args, Item.functionCall cid nm args ∈ items ∧ tools.lookup nm = none) →
      ∃ nm, tools.lookup nm = none ∧
        drainItems tools computer allActions allChecks items shots =
          .error (.unknownTool nm) := by
  intro items
  induction items with
  | nil =>
    intro shots _ _ _ hunk
    obtain ⟨cid, nm, args, hm, _⟩ := hunk
    exact absurd hm (List.not_mem_nil _)
  | cons item rest ih =>
    intro shots hsup hcc hhandlers hunk
    cases item with
    | computerCall cid a0 ch =>
      have hne : allActions ≠ [] := hcc cid a0 ch (List.mem_cons_self _ _)
      cases hact : allActions with
      | nil => exact absurd hact hne
      | cons a tl =>
        obtain ⟨cid2, nm2, args2, hm2, hlk2⟩ := hunk
        have hm3 : Item.functionCall cid2 nm2 args2 ∈ rest := by
          cases List.mem_cons.mp hm2 with
          | inl heq => exact absurd heq (by simp)
          | inr h2 => exact h2
        obtain ⟨nm, hnm, herr⟩ := ih (shots + 1)
          (fun i hi => hsup i (List.mem_cons_of_mem _ hi))
          (fun cid3 a3 ch3 hm4 => hcc cid3 a3 ch3 (List.mem_cons_of_mem _ hm4))
          hhandlers ⟨cid2, nm2, args2, hm3, hlk2⟩
        refine ⟨nm, hnm, ?_⟩
        rw [hact] at herr
        rw [drainItems]
        simp only [herr]
    | functionCall cid nm args =>
      cases hlk : tools.lookup nm with
      | none =>
        refine ⟨nm, hlk, ?_⟩
        rw [drainItems, hlk]
      | some func =>
        obtain ⟨cid2, nm2, args2, hm2, hlk2⟩ := hunk
        have hm3 : Item.functionCall cid2 nm2 args2 ∈ rest := by
          cases List.mem_cons.mp hm2 with
          | inl heq =>
            have : nm2 = nm := by
              injection heq
            rw [this] at hlk2
            rw [hlk2] at hlk
            exact absurd hlk (by simp)
          | inr h2 => exact h2
        obtain ⟨res, hres⟩ := hhandlers nm func hlk args
        obtain ⟨nm3, hnm3, herr⟩ := ih shots
          (fun i hi => hsup i (List.mem_cons_of_mem _ hi))
          (fun cid3 a3 ch3 hm4 => hcc cid3 a3 ch3 (List.mem_cons_of_mem _ hm4))
          hhandlers ⟨cid2, nm2, args2, hm3, hlk2⟩
        refine ⟨nm3, hnm3, ?_⟩
        rw [drainItems]
        simp only [hlk, hres, herr]
    | message role content =>
      obtain ⟨cid2, nm2, args2, hm2, hlk2⟩ := hunk
      have hm3 : Item.functionCall cid2 nm2 args2 ∈ rest := by
        cases List.mem_cons.mp hm2 with
        | inl heq => exact absurd heq (by simp)
        | inr h2 => exact h2
      obtain ⟨nm, hnm, herr⟩ := ih shots
        (fun i hi => hsup i (List.mem_cons_of_mem _ hi))
        (fun cid3 a3 ch3 hm4 => hcc cid3 a3 ch3 (List.mem_cons_of_mem _ hm4))
        hhandlers ⟨cid2, nm2, args2, hm3, hlk2⟩
      exact ⟨nm, hnm, by rw [drainItems, herr]⟩
    | reasoning summary =>
      obtain ⟨cid2, nm2, args2, hm2, hlk2⟩ := hunk
      have hm3 : Item.functionCall cid2 nm2 args2 ∈ rest := by
        cases List.mem_cons.mp hm2 with
        | inl heq => exact absurd heq (by simp)
        | inr h2 => exact h2
      obtain ⟨nm, hnm, herr⟩ := ih shots
        (fun i hi => hsup i (List.mem_cons_of_mem _ hi))
        (fun cid3 a3 ch3 hm4 => hcc cid3 a3 ch3 (List.mem_cons_of_mem _ hm4))
        hhandlers ⟨cid2, nm2, args2, hm3, hlk2⟩
      exact ⟨nm, hnm, by rw [drainItems, herr]⟩
    | other t =>
      have := hsup (Item.other t) (List.mem_cons_self _ _)
      exact absurd ⟨t, rfl⟩ this

/-- C5: a prior response containing a function call whose name is not in the
tool registry makes `continue_task` raise the unknown-tool error (the
`ValueError` naming the unsupported tool in the source), the error
propagates aborting the turn with the held response untouched, and no
request at all — not even a partial one — is submitted to the model channel,
provided the response holds no unsupported item type and the tools that are
registered return normally (the arguments JSON is taken as well formed: its
decoding lies outside the embedded core). -/
theorem unknownTool_aborts_turn (tools : ToolRegistry) (computer : Computer)
    (r : Response) (userMessage : String) (channel : ModelChannel)
    (hsup : ∀ i ∈ r.output, ¬∃ t, i = Item.other t)
    (hhandlers : ∀ nm f, tools.lookup nm = some f → ∀ args, ∃ res, f args = .ok res)
    (hunk : ∃ cid nm args, Item.functionCall cid nm args ∈ r.output ∧
      tools.lookup nm = none) :
    (∃ nm, tools.lookup nm = none ∧
      (continueTask tools computer (some r) userMessage channel).outcome =
        .error (.unknownTool nm)) ∧
    (continueTask tools computer (some r) userMessage channel).attempts = 0 ∧
    (continueTask tools computer (some r) userMessage channel).response = some r := by
  obtain ⟨nm, hnm, herr⟩ := drainItems_unknownTool tools computer
    (Agent.actionsList r)
    ((r.output.filter fun item => item.type == "computer_call").flatMap
      Item.pendingSafetyChecksOf) r.output 0 hsup
    (fun cid a ch hm => actionsList_ne_nil_of_mem r cid a ch hm) hhandlers hunk
  have hdrain : drainOf tools computer (some r) = .error (.unknownTool nm) := by
    rw [drainOf]
    simp only [herr]
  exact ⟨⟨nm, hnm, by simp [continueTask, hdrain]⟩,
    by simp [continueTask, hdrain], by simp [continueTask, hdrain]⟩

/-- C5 witness: the unknown-tool abort at the concrete prior response whose
sole item calls the unregistered tool `mytool` against an empty registry. -/
theorem unknownTool_aborts_turn_witness :
    (∃ nm, (([] : ToolRegistry)).lookup nm = none ∧
      (continueTask [] constComputer (some unknownToolResponse) "" okChannel).outcome =
        .error (.unknownTool nm)) ∧
    (continueTask [] constComputer (some unknownToolResponse) "" okChannel).attempts = 0 ∧
    (continueTask [] constComputer (some unknownToolResponse) "" okChannel).response =
      some unknownToolResponse := by
  refine unknownTool_aborts_turn [] constComputer unknownToolResponse "" okChannel
    ?_ ?_ ?_
  · intro i hi
    simp only [unknownToolResponse, List.mem_singleton] at hi
    subst hi
    simp
  · intro nm f hf
    simp [List.lookup] at hf
  · exact ⟨"fc1", "mytool", "\x7b\x7d", by simp [unknownToolResponse], rfl⟩

/-- After the drain phase the stored response can only be `None` or a
response produced by the channel itself: the prior response is never
restored. -/
theorem retryLoop_response_cases (channel : ModelChannel) :
    ∀ (fuel idx wait : Nat),
      (retryLoop channel fuel idx wait).response = none ∨
      ∃ n resp, channel n = .ok resp ∧
        (retryLoop channel fuel idx wait).response = some resp := by
  intro fuel
  induction fuel with
  | zero => intro idx wait; left; rfl
  | succ f ih =>
    intro idx wait
    cases hch : channel idx with
    | ok resp =>
      right
      refine ⟨idx, resp, hch, ?_⟩
      simp only [retryLoop, hch]
      split <;> rfl
    | rateLimit msg =>
      rw [retryLoop, hch]
      simpa using ih (idx + 1) ((parseRetryWait msg).getD 10)
    | failure msg =>
      left
      rw [retryLoop, hch]

/-- C9 counterexample: with an empty drain, the model call succeeds but
returns a response whose status is `in_progress`; the completion assertion
fails — a failure after submission — yet the agent is left holding that
just-created response, not `None`. -/
theorem assert_failure_keeps_new_response :
    (continueTask [] constComputer none "" inProgressChannel).outcome =
      .error .assertNotCompleted ∧
    (continueTask [] constComputer none "" inProgressChannel).response =
      some { id := "bad", status := "in_progress", output := [] } :=
  ⟨rfl, rfl⟩

/-- C9 amended: `continue_task` is not atomic with respect to the held
response.  If the drain of the prior response raises, the held response is
unchanged and nothing is submitted; once draining succeeds, the held
response is cleared before submission, so afterwards the agent holds either
`None` or a response returned by the channel itself — the prior response is
never restored — and in particular a model call that raises, or retry
exhaustion, leaves `None`, except that a model call returning a
non-`completed` response fails the completion assertion while that new
response stays held. -/
theorem continueTask_not_atomic (tools : ToolRegistry) (computer : Computer)
    (prior : Option Response) (userMessage : String) (channel : ModelChannel)
    (e : TurnError) (payload : List OutputEntry × List Action) (resp : Response) :
    (drainOf tools computer prior = .error e →
      (continueTask tools computer prior userMessage channel).response = prior ∧
      (continueTask tools computer prior userMessage channel).attempts = 0 ∧
      (continueTask tools computer prior userMessage channel).outcome = .error e) ∧
    (drainOf tools computer prior = .ok payload →
      ((continueTask tools computer prior userMessage channel).response = none ∨
        ∃ n resp2, channel n = .ok resp2 ∧
          (continueTask tools computer prior userMessage channel).response = some resp2)) ∧
    (drainOf tools computer prior = .ok payload → channel 0 = .ok resp →
      resp.status ≠ "completed" →
      (continueTask tools computer prior userMessage channel).response = some resp ∧
      (continueTask tools computer prior userMessage channel).outcome =
        .error .assertNotCompleted) := by
  obtain ⟨outs, trace⟩ := payload
  refine ⟨fun hdrain => ?_, fun hdrain => ?_, fun hdrain hch hst => ?_⟩
  · simp [continueTask, hdrain]
  · simp only [continueTask, hdrain]
    exact retryLoop_response_cases channel 10 0 0
  · have hbeq : (resp.status == "completed") = false := by
      exact beq_eq_false_iff_ne.mpr hst
    simp only [continueTask, hdrain]
    rw [show (10 : Nat) = 9 + 1 from rfl, retryLoop, hch]
    simp [hbeq]

/-- C9 witness: the amended statement at a drained prior response of one
reasoning item and a channel whose first call returns an `in_progress`
response: the held response afterwards is that new response and the
completion assertion error is the outcome. -/
theorem continueTask_not_atomic_witness :
    (continueTask [] constComputer (some (Response.mk "r0" "completed" [.reasoning []]))
        "" inProgressChannel).response =
      some { id := "bad", status := "in_progress", output := [] } ∧
    (continueTask [] constComputer (some (Response.mk "r0" "completed" [.reasoning []]))
        "" inProgressChannel).outcome = .error .assertNotCompleted := by
  have h := continueTask_not_atomic [] constComputer
    (some (Response.mk "r0" "completed" [.reasoning []])) "" inProgressChannel
    TurnError.indexError ([], [])
    { id := "bad", status := "in_progress", output := [] }
  exact h.2.2 rfl rfl (by decide)

end CUA
